import Mathlib

/-!
Verification of the Gmail payload-tree walkers and helpers of
server/mcp_toolkit.py (MCP_ENABLED_CHATBOT).

The Python code works on the JSON message payload returned by the Gmail
API: a tree of parts, each part a dict with optional keys mimeType,
filename, body (itself a dict with optional data, attachmentId, size) and
parts (the list of child parts).  The embedding below models a part as the
inductive type Payload, with Option fields for possibly-absent keys; a
dict access that can raise KeyError is modelled in the Except monad.

External library calls are modelled as follows:
- base64.urlsafe_b64decode(data).decode(utf-8, errors=ignore) is an
  explicit parameter decode : String -> Option String of the walkers
  (none models the call raising, some s a successful decode);
- tiktoken token counting is an explicit parameter
  tokenCount : String -> Nat;
- the remote Gmail / Drive list endpoints are explicit parameters of the
  listing models.
Floating point formatting f-string {x:.1f} is modelled by exact rational
rounding (round half to even) on a numerator / denominator pair; the
values reached in this development are exact in both models.
-/

/-- Python truthiness of a possibly-absent string value: present and
non-empty. -/
def truthyStr : Option String → Bool
  | some s => s ≠ ""
  | none => false

/-- ASCII lower-casing of one character, model of str.lower (the source
only lower-cases filenames, which are ASCII in every scenario considered
here). -/
def pyCharLower (c : Char) : Char :=
  if 65 ≤ c.toNat ∧ c.toNat ≤ 90 then Char.ofNat (c.toNat + 32) else c

/-- Lower-case a character list, model of str.lower. -/
def pyLowerList (l : List Char) : List Char := l.map pyCharLower

/-- Code points treated as whitespace by the Python regex class backslash-s
and by str.strip (Unicode whitespace). -/
def pySpaceCodes : List Nat :=
  [9, 10, 11, 12, 13, 28, 29, 30, 31, 32, 133, 160, 5760, 8232, 8233, 8239, 8287, 12288]

/-- Whitespace test for one character, model of the Python regex class
backslash-s on str and of the default str.strip set. -/
def isPySpace (c : Char) : Bool :=
  pySpaceCodes.contains c.toNat || (8192 ≤ c.toNat && c.toNat ≤ 8202)

/-- Model of str.strip on a character list: drop whitespace from both
ends. -/
def pyStripList (l : List Char) : List Char :=
  ((l.dropWhile isPySpace).reverse.dropWhile isPySpace).reverse

/-- Model of str.strip on a string. -/
def pyStripStr (s : String) : String := String.mk (pyStripList s.toList)

/-- Suffix test on character lists, model of str.endswith. -/
def listEndsWith (s suffix : List Char) : Bool :=
  s.drop (s.length - suffix.length) == suffix

/-- Needle matches at the head of the haystack. -/
def subAt : List Char → List Char → Bool
  | [], _ => true
  | _ :: _, [] => false
  | c :: nr, h :: hr => c = h && subAt nr hr

/-- Needle occurs somewhere in the haystack (substring test). -/
def containsSub : List Char → List Char → Bool
  | needle, [] => subAt needle []
  | needle, h :: hr => subAt needle (h :: hr) || containsSub needle hr

/-- Decimal value of a digit list (all characters assumed decimal
digits). -/
def digitsToNat (l : List Char) : Nat :=
  l.foldl (fun acc c => 10 * acc + (c.toNat - 48)) 0

/-- Digit-list parser: succeeds only on a non-empty all-digit list. -/
def parseDigits (l : List Char) : Option Nat :=
  if l ≠ [] && l.all Char.isDigit then some (digitsToNat l) else none

/-- Model of the Python int() conversion on strings: optional surrounding
whitespace, an optional sign, then decimal digits (the underscore digit
separators accepted by int() are not modelled; no call site uses them). -/
def pyParseInt (s : String) : Option Int :=
  match pyStripList s.toList with
  | [] => none
  | c :: rest =>
    if c = Char.ofNat 45 then (parseDigits rest).map (fun n => -(n : Int))
    else if c = Char.ofNat 43 then (parseDigits rest).map (fun n => (n : Int))
    else (parseDigits (c :: rest)).map (fun n => (n : Int))

/-- Model of str.isdigit restricted to ASCII digits: non-empty and all
digits. -/
def pyIsdigit (s : String) : Bool :=
  s.toList ≠ [] && s.toList.all Char.isDigit

/-- Round the rational num / den (den positive) to the nearest integer,
ties to even: the rounding used by the Python f-string {x:.1f} once the
value is scaled by ten. -/
def roundHalfEvenFrac (num : Int) (den : Nat) : Int :=
  let q := Int.fdiv num den
  let r := Int.fmod num den
  if 2 * r < (den : Int) then q
  else if (den : Int) < 2 * r then q + 1
  else if q % 2 = 0 then q else q + 1

/-- Model of the f-string {x:.1f} applied to the exact rational
num / den: one digit after the decimal point, ties to even.  The source
computes x in floating point; on every value reached in this development
the two agree. -/
def formatFix1Frac (num : Int) (den : Nat) : String :=
  let n := roundHalfEvenFrac (10 * num) den
  if n < 0 then "-" ++ toString ((-n) / 10) ++ "." ++ toString ((-n) % 10)
  else toString (n / 10) ++ "." ++ toString (n % 10)

/-- First definition of format_file_size in the source (file lines
869-886).  Shadowed at module load by the later definition of the same
name; kept under a distinct Lean name to compare the two. -/
def format_file_size_first (size_str : String) : String :=
  if size_str = "N/A" || size_str = "" || !pyIsdigit size_str then "Size unknown"
  else
    let size_bytes : Nat := digitsToNat size_str.toList
    if size_bytes < 1024 then toString size_bytes ++ " B"
    else if size_bytes < 1024 * 1024 then formatFix1Frac size_bytes 1024 ++ " KB"
    else if size_bytes < 1024 * 1024 * 1024 then formatFix1Frac size_bytes (1024 * 1024) ++ " MB"
    else formatFix1Frac size_bytes (1024 * 1024 * 1024) ++ " GB"

/-- Loop of the second format_file_size definition: repeatedly divide by
1024 while walking the unit list, formatting with {size:.1f} at the first
unit where size < 1024, and as TB after the list is exhausted.  The
current value is the exact rational num / den. -/
def format_file_size_loop (num : Int) (den : Nat) : List String → String
  | [] => formatFix1Frac num den ++ " TB"
  | u :: rest =>
    if num < 1024 * (den : Int) then formatFix1Frac num den ++ " " ++ u
    else format_file_size_loop num (den * 1024) rest

/-- Second definition of format_file_size in the source (file lines
931-941).  Python rebinds the module-level name at load time, so every
runtime call site of format_file_size resolves to this definition; it is
therefore given the plain source name. -/
def format_file_size (size_str : String) : String :=
  match pyParseInt size_str with
  | none => size_str
  | some i => format_file_size_loop i 1 ["B", "KB", "MB", "GB"]

/-- End of a candidate tag span: the characters after an opening angle
bracket are scanned for the first closing bracket; a newline before it
makes the regex dot fail, so the candidate is abandoned.  Returns the
remainder after the closing bracket on success. -/
def tagSpanEnd : List Char → Option (List Char)
  | [] => none
  | c :: rest =>
    if c = Char.ofNat 62 then some rest
    else if c = Char.ofNat 10 then none
    else tagSpanEnd rest

/-- Fuelled scan for re.sub applied to the non-greedy tag pattern
(angle bracket, lazy dot-star, closing angle bracket) with empty
replacement: at each opening bracket the match extends to the first
closing bracket not preceded by a newline; on failure the opening bracket
is kept and scanning resumes one character later.  Fuel at least the list
length makes the fuel case unreachable. -/
def removeTagsFuel : Nat → List Char → List Char
  | 0, l => l
  | _ + 1, [] => []
  | fuel + 1, c :: rest =>
    if c = Char.ofNat 60 then
      match tagSpanEnd rest with
      | some after => removeTagsFuel fuel after
      | none => c :: removeTagsFuel fuel rest
    else c :: removeTagsFuel fuel rest

/-- Tag removal pass of strip_html_tags. -/
def removeTags (l : List Char) : List Char := removeTagsFuel l.length l

/-- A single-quote character as a string (used to build source message
strings). -/
def squote : String := String.singleton (Char.ofNat 39)

/-- Named character references understood by the html.unescape model.
The real table is the full HTML5 list; this development only relies on
entries from the standard core. -/
def htmlEntities : List (String × String) :=
  [("amp", "&"), ("lt", "<"), ("gt", ">"), ("quot", "\""),
   ("apos", squote), ("nbsp", String.singleton (Char.ofNat 160)),
   ("copy", String.singleton (Char.ofNat 169))]

/-- Scan a bounded candidate entity name up to a terminating semicolon. -/
def entityScan : Nat → List Char → Option (List Char × List Char)
  | 0, _ => none
  | _ + 1, [] => none
  | bound + 1, c :: rest =>
    if c = Char.ofNat 59 then some ([], rest)
    else if c = Char.ofNat 38 || c = Char.ofNat 60 || isPySpace c then none
    else (entityScan bound rest).map (fun pr => (c :: pr.1, pr.2))

/-- Hexadecimal value of a digit list, if well-formed. -/
def hexToNat : List Char → Option Nat
  | [] => none
  | l =>
    if l.all (fun c => c.isDigit || (97 ≤ (pyCharLower c).toNat && (pyCharLower c).toNat ≤ 102)) then
      some (l.foldl (fun acc c =>
        16 * acc + (if c.isDigit then c.toNat - 48 else (pyCharLower c).toNat - 87)) 0)
    else none

/-- Character for a numeric character reference: the replacement character
for values outside the Unicode scalar range, as html.unescape produces. -/
def charFromCode (n : Nat) : Char :=
  if n < 55296 ∨ (57344 ≤ n ∧ n < 1114112) then Char.ofNat n else Char.ofNat 65533

/-- Replacement for one entity name (without the surrounding ampersand and
semicolon): numeric decimal, numeric hexadecimal, or a named entity from
the table; none leaves the text unchanged, as html.unescape does for
unknown names. -/
def entityReplacement (name : List Char) : Option (List Char) :=
  match name with
  | c :: rest =>
    if c = Char.ofNat 35 then
      match rest with
      | x :: ds =>
        if x = Char.ofNat 120 ∨ x = Char.ofNat 88 then
          (hexToNat ds).map (fun n => [charFromCode n])
        else (parseDigits (x :: ds)).map (fun n => [charFromCode n])
      | [] => none
    else ((htmlEntities.find? (fun pr => pr.1 = String.mk name)).map (fun pr => pr.2.toList))
  | [] => none

/-- Fuelled scan for html.unescape restricted to semicolon-terminated
character references (named or numeric); anything else is copied
through. -/
def unescapeFuel : Nat → List Char → List Char
  | 0, l => l
  | _ + 1, [] => []
  | fuel + 1, c :: rest =>
    if c = Char.ofNat 38 then
      match entityScan 32 rest with
      | some (name, after) =>
        match entityReplacement name with
        | some repl => repl ++ unescapeFuel fuel after
        | none => c :: unescapeFuel fuel rest
      | none => c :: unescapeFuel fuel rest
    else c :: unescapeFuel fuel rest

/-- Entity decoding pass of strip_html_tags. -/
def unescapeHtml (l : List Char) : List Char := unescapeFuel l.length l

/-- Whitespace collapsing: re.sub of one-or-more whitespace with a single
space, written as a one-pass state machine over the characters. -/
def collapseWsAux : Bool → List Char → List Char
  | _, [] => []
  | prevSpace, c :: rest =>
    if isPySpace c then
      if prevSpace then collapseWsAux true rest
      else Char.ofNat 32 :: collapseWsAux true rest
    else c :: collapseWsAux false rest

/-- Whitespace collapsing pass of strip_html_tags. -/
def collapseWs (l : List Char) : List Char := collapseWsAux false l

/-- Model of strip_html_tags (file lines 918-929): empty input is returned
unchanged, otherwise remove tags, decode entities, collapse whitespace and
strip the ends, in that order. -/
def strip_html_tags (html_content : String) : String :=
  if html_content = "" then ""
  else String.mk (pyStripList (collapseWs (unescapeHtml (removeTags html_content.toList))))

/-- Model of the body dict of a payload part: the keys data, attachmentId
and size, each possibly absent. -/
structure Body where
  data : Option String
  attachmentId : Option String
  size : Option Int
deriving DecidableEq

/-- A Gmail message payload part: the keys mimeType, filename, body and
parts, each possibly absent.  A present parts key holds the ordered child
list. -/
inductive Payload : Type where
  | node (mimeType : Option String) (filename : Option String)
         (body : Option Body) (parts : Option (List Payload)) : Payload

/-- The mimeType key of a part. -/
def Payload.mimeType : Payload → Option String
  | .node mt _ _ _ => mt

/-- The filename key of a part. -/
def Payload.filename : Payload → Option String
  | .node _ fn _ _ => fn

/-- The body key of a part. -/
def Payload.body : Payload → Option Body
  | .node _ _ bd _ => bd

/-- The parts key of a part. -/
def Payload.parts : Payload → Option (List Payload)
  | .node _ _ _ ps => ps

/-- Convenience: the inline body data of a part, as the chained dict reads
payload.get(body, empty dict).get(data) produce it. -/
def bodyData (p : Payload) : Option String := (Payload.body p).bind Body.data

mutual
/-- Model of extract_text_from_payload (file lines 1051-1066).  If the
mimeType of the node equals the requested type and truthy inline data is
present, the decoded text is returned immediately (none when the decode
raises, caught by the bare except); otherwise the children are scanned in
order for the first truthy result. -/
def extract_text_from_payload (decode : String → Option String) (mt : String) : Payload → Option String
  | .node pmt _ pb pparts =>
    match (if pmt = some mt then pb.bind Body.data else none) with
    | some d =>
      if d = "" then
        match pparts with
        | some ps => extract_text_loop decode mt ps
        | none => none
      else decode d
    | none =>
      match pparts with
      | some ps => extract_text_loop decode mt ps
      | none => none

/-- The for-loop of extract_text_from_payload over a child list: the first
truthy (non-none, non-empty) recursive result is returned, falsy results
are skipped, and none is returned after the loop. -/
def extract_text_loop (decode : String → Option String) (mt : String) : List Payload → Option String
  | [] => none
  | p :: rest =>
    match extract_text_from_payload decode mt p with
    | some s => if s = "" then extract_text_loop decode mt rest else some s
    | none => extract_text_loop decode mt rest
end

/-- Model of extract_email_body (file lines 1037-1049): prefer a truthy
text/plain extraction, fall back to a truthy text/html extraction run
through strip_html_tags, and otherwise report the fixed message. -/
def extract_email_body (decode : String → Option String) (payload : Payload) : String :=
  let plain_text := extract_text_from_payload decode "text/plain" payload
  if truthyStr plain_text then plain_text.getD ""
  else
    let html_text := extract_text_from_payload decode "text/html" payload
    if truthyStr html_text then strip_html_tags (html_text.getD "")
    else "No readable text content found."

/-- One collected attachment record of get_attachment_info. -/
structure AttachmentInfo where
  filename : String
  mime_type : String
  size : String
  attachment_id : String
deriving DecidableEq

/-- A Python runtime error surfaced by a direct dict index. -/
inductive PyErr where
  | keyError (key : String)
deriving DecidableEq

mutual
/-- Handling of a single part inside process_parts (file lines
1072-1082): a part holding a parts key is only recursed into; otherwise
the part is collected exactly when its filename is truthy and its body
dict holds a truthy attachmentId.  The direct indexes part[body] and
part[mimeType] raise KeyError when the key is absent. -/
def process_one_part : Payload → Except PyErr (List AttachmentInfo)
  | .node _ _ _ (some children) => process_parts children
  | .node pmt pfn pbody none =>
    if truthyStr pfn then
      match pbody with
      | none => .error (.keyError "body")
      | some b =>
        if truthyStr b.attachmentId then
          match pmt with
          | none => .error (.keyError "mimeType")
          | some m =>
            .ok [{ filename := pfn.getD "", mime_type := m,
                   size := format_file_size (toString (b.size.getD 0)),
                   attachment_id := b.attachmentId.getD "" }]
        else .ok []
    else .ok []

/-- Model of the inner process_parts loop of get_attachment_info: the
parts are visited left to right and their contributions concatenated; the
first KeyError aborts the whole call. -/
def process_parts : List Payload → Except PyErr (List AttachmentInfo)
  | [] => .ok []
  | part :: rest =>
    match process_one_part part with
    | .error e => .error e
    | .ok a =>
      match process_parts rest with
      | .error e => .error e
      | .ok b => .ok (a ++ b)
end

/-- Model of get_attachment_info (file lines 1068-1087): the root payload
itself is never collected; its parts, when the key is present, are
processed recursively. -/
def get_attachment_info (payload : Payload) : Except PyErr (List AttachmentInfo) :=
  match Payload.parts payload with
  | some ps => process_parts ps
  | none => .ok []

/-- Supported-extension test of the auto-selection loop in
gmail_read_attchment_content: the lower-cased filename must end in .pdf,
.docx or .txt. -/
def supported_attachment_filename (filename : String) : Bool :=
  listEndsWith (pyLowerList filename.toList) ".pdf".toList ||
  listEndsWith (pyLowerList filename.toList) ".docx".toList ||
  listEndsWith (pyLowerList filename.toList) ".txt".toList

/-- Selection test of the auto-selection loop: supported filename
extension and a truthy attachmentId in the body dict. -/
def auto_select_pred (part : Payload) : Bool :=
  supported_attachment_filename ((Payload.filename part).getD "") &&
  truthyStr ((Payload.body part).bind Body.attachmentId)

/-- The auto-selection for-loop of gmail_read_attchment_content (file
lines 1376-1383): first part of the given list passing the test. -/
def auto_select_first : List Payload → Option Payload
  | [] => none
  | part :: rest => if auto_select_pred part then some part else auto_select_first rest

/-- Message returned when no supported attachment is found. -/
def no_supported_attachment_msg : String :=
  "No supported attachment (.pdf, .docx, .txt) found in this message."

/-- Model of the attachment auto-selection phase of
gmail_read_attchment_content when no attachment_id is supplied: only the
top-level parts list of the payload is scanned (there is no recursion into
nested parts); on success the matched part and its attachmentId are
returned, otherwise the fixed message. -/
def gmail_read_attchment_auto_select (payload : Payload) : Except String (Payload × String) :=
  match auto_select_first ((Payload.parts payload).getD []) with
  | some part => .ok (part, ((Payload.body part).bind Body.attachmentId).getD "")
  | none => .error no_supported_attachment_msg

/-- Token budget of gmail_read_attchment_content (the MAX_TOKENS constant
in the body of the function; its docstring advertises 3000 but the code
uses 30000). -/
def MAX_TOKENS : Nat := 30000

/-- The size-limit message of gmail_read_attchment_content, naming the
measured token count and the budget. -/
def size_limit_message (filename : String) (token_count : Nat) : String :=
  "File " ++ squote ++ filename ++ squote ++ " is too large (" ++ toString token_count ++
  " tokens). Maximum allowed is " ++ toString MAX_TOKENS ++
  " tokens. The file will not be loaded."

/-- Model of the tail of gmail_read_attchment_content after text
extraction (file lines 1422-1430): report when the stripped text is empty,
report the size-limit message when the token count exceeds the budget, and
otherwise return the stripped text.  The tiktoken encoder is the explicit
tokenCount parameter. -/
def gmail_read_attchment_finalize (tokenCount : String → Nat) (filename extracted_text : String) : String :=
  if pyStripStr extracted_text = "" then
    "Attachment was processed but no extractable text was found."
  else if MAX_TOKENS < tokenCount extracted_text then
    size_limit_message filename (tokenCount extracted_text)
  else pyStripStr extracted_text

/-- Model of the filtering loop of gmail_find_messages_with_attachments
(file lines 1244-1334): iterate over the search result references, break
as soon as the valid list has reached max_results, and otherwise append
the processed message when fetching and attachment filtering succeed (the
fetch parameter returns none both for a skipped exception and for a
message without matching attachments). -/
def gmail_find_collect {α β : Type} (max_results : Int) (fetch : α → Option β) :
    List α → List β → List β
  | [], valid => valid
  | m :: rest, valid =>
    if max_results ≤ (valid.length : Int) then valid
    else
      match fetch m with
      | some d => gmail_find_collect max_results fetch rest (valid ++ [d])
      | none => gmail_find_collect max_results fetch rest valid

/-- The valid-message list produced by gmail_find_messages_with_attachments
from a search result list. -/
def gmail_find_messages_result {α β : Type} (max_results : Int) (fetch : α → Option β)
    (message_list : List α) : List β :=
  gmail_find_collect max_results fetch message_list []

/-- Model of the listing core of drive_list_all_files (file lines
724-734): the requested page size is max_results clamped to 1000, and the
items shown are exactly the files of the remote response for that page
size. -/
def drive_list_all_files_items {γ : Type} (max_results : Int) (listFiles : Int → List γ) : List γ :=
  listFiles (min max_results 1000)

mutual
/-- Depth-first pre-order listing of the nodes of a payload tree: the node
itself, then the nodes of its children in order. -/
def preorderNodes : Payload → List Payload
  | .node mt fn bd ps =>
    Payload.node mt fn bd ps ::
      (match ps with
       | some l => preorderForest l
       | none => [])

/-- Depth-first pre-order listing of the nodes of a forest. -/
def preorderForest : List Payload → List Payload
  | [] => []
  | p :: rest => preorderNodes p ++ preorderForest rest
end

/-- The non-root nodes of a payload tree in depth-first pre-order (the
nodes reachable through the parts key of the root). -/
def descendants (p : Payload) : List Payload :=
  match Payload.parts p with
  | some l => preorderForest l
  | none => []

/-- The nodes that get_attachment_info actually collects (when it does not
raise): no parts key, truthy filename, truthy attachmentId in the body
dict. -/
def collectedAsAttachment (p : Payload) : Bool :=
  (Payload.parts p).isNone && truthyStr (Payload.filename p) &&
  truthyStr ((Payload.body p).bind Body.attachmentId)

/-- The attachment record get_attachment_info builds for a collected
node. -/
def attachment_record (p : Payload) : AttachmentInfo :=
  { filename := (Payload.filename p).getD "",
    mime_type := (Payload.mimeType p).getD "",
    size := format_file_size (toString (((Payload.body p).bind Body.size).getD 0)),
    attachment_id := ((Payload.body p).bind Body.attachmentId).getD "" }

/-- The attachment test as the claim under review states it: non-empty
filename and a usable body reference, either inline data or a remote
attachment id. -/
def claim_attachment (p : Payload) : Bool :=
  truthyStr (Payload.filename p) &&
  (truthyStr (bodyData p) || truthyStr ((Payload.body p).bind Body.attachmentId))

/-- Test whether a node carries the given mimeType. -/
def mimeIs (mt : String) (n : Payload) : Bool := Payload.mimeType n = some mt

/-- First node of the tree, in depth-first pre-order, whose mimeType
equals the given type. -/
def firstNodeWithMime (mt : String) (p : Payload) : Option Payload :=
  (preorderNodes p).find? (mimeIs mt)

/-- A node yields content for a type when its mimeType matches, truthy
inline data is present, and the decode succeeds with a non-empty
string. -/
def nodeYieldsContent (decode : String → Option String) (mt : String) (p : Payload) : Bool :=
  Payload.mimeType p = some mt &&
  (match bodyData p with
   | some d => d ≠ "" && (match decode d with
     | some s => s ≠ ""
     | none => false)
   | none => false)

/-- Some node of the tree yields content for the given type. -/
def anyNodeYields (decode : String → Option String) (mt : String) (p : Payload) : Bool :=
  (preorderNodes p).any (nodeYieldsContent decode mt)

/-- Concrete stand-in for base64.urlsafe_b64decode followed by utf-8
decoding with errors ignored, tabulating the checked behaviour of the
library on the inputs used in this development: SGVsbG8= decodes to Hello,
==== decodes to the empty byte string and hence the empty text, _w==
decodes to a lone invalid byte which the ignore handler drops, A raises
binascii.Error (modelled as none), and PGI-eDwvYj4= decodes to an HTML
fragment. -/
def decodeEx (d : String) : Option String :=
  if d = "SGVsbG8=" then some "Hello"
  else if d = "====" then some ""
  else if d = "_w==" then some ""
  else if d = "A" then none
  else if d = "PGI-eDwvYj4=" then some "<b>x</b>"
  else none

/-- Leaf part carrying a filename and inline body data but no
attachmentId: a forwarded inline attachment. -/
def c1leaf : Payload :=
  .node (some "text/plain") (some "a.txt") (some ⟨some "SGVsbG8=", none, some 5⟩) none

/-- Tree whose only candidate node has inline data but no attachmentId. -/
def c1tree : Payload := .node (some "multipart/mixed") none none (some [c1leaf])

/-- Nested attachment part: a supported pdf with an attachmentId. -/
def c2pdf : Payload :=
  .node (some "application/pdf") (some "report.pdf") (some ⟨none, some "att1", some 2048⟩) none

/-- Container part holding the pdf as a nested child. -/
def c2container : Payload := .node (some "multipart/mixed") (some "") (some ⟨none, none, none⟩) (some [c2pdf])

/-- Payload whose only supported attachment sits one level below the
top-level parts list. -/
def c2tree : Payload := .node (some "multipart/mixed") none none (some [c2container])

/-- Payload with a single top-level image attachment, the unsupported
auto-selection scenario of the specification. -/
def c2pngtree : Payload :=
  .node (some "multipart/mixed") none none
    (some [.node (some "image/png") (some "image.png") (some ⟨none, some "att9", some 4096⟩) none])

/-- Single text/plain node whose inline data decodes to the empty
string. -/
def c3tree1 : Payload := .node (some "text/plain") none (some ⟨some "====", none, none⟩) none

/-- Single node matching neither text/plain nor text/html. -/
def c3tree2 : Payload := .node (some "application/octet-stream") none none none

/-- Child part with well-formed plain text data. -/
def c4child : Payload := .node (some "text/plain") none (some ⟨some "SGVsbG8=", none, none⟩) none

/-- Root matching text/plain with malformed inline data, holding a child
with good plain text. -/
def c4tree : Payload := .node (some "text/plain") none (some ⟨some "A", none, none⟩) (some [c4child])

/-- First text/plain part in pre-order: data decodes to the empty
string. -/
def c5p1 : Payload := .node (some "text/plain") none (some ⟨some "====", none, none⟩) none

/-- Second text/plain part: data decodes to Hello. -/
def c5p2 : Payload := .node (some "text/plain") none (some ⟨some "SGVsbG8=", none, none⟩) none

/-- A text/html part. -/
def c5p3 : Payload := .node (some "text/html") none (some ⟨some "PGI-eDwvYj4=", none, none⟩) none

/-- Multipart tree whose first plain part decodes empty, second decodes
non-empty, plus an html alternative. -/
def c5tree : Payload := .node (some "multipart/alternative") none none (some [c5p1, c5p2, c5p3])

/-- Multipart tree for the witness: first plain part already yields
Hello. -/
def c5wtree : Payload := .node (some "multipart/alternative") none none (some [c5p2, c5p3])

/-- Attachment leaf whose mimeType key holds the empty string. -/
def c6leafEmptyMime : Payload :=
  .node (some "") (some "a.txt") (some ⟨none, some "att1", some 0⟩) none

/-- Attachment leaf whose mimeType key is absent. -/
def c6leafNoMime : Payload :=
  .node none (some "a.txt") (some ⟨none, some "att1", some 0⟩) none

/-- Tree around the empty-mimeType leaf. -/
def c6treeEmptyMime : Payload := .node (some "multipart/mixed") none none (some [c6leafEmptyMime])

/-- Tree around the missing-mimeType leaf. -/
def c6treeNoMime : Payload := .node (some "multipart/mixed") none none (some [c6leafNoMime])

/-- Attachment leaf used to observe which format_file_size definition the
collector calls at runtime. -/
def c10leaf : Payload :=
  .node (some "application/pdf") (some "r.pdf") (some ⟨none, some "att7", some 7⟩) none

/-- Tree around the size-observation leaf. -/
def c10tree : Payload := .node (some "multipart/mixed") none none (some [c10leaf])

/-- Leaf attachment with a remote attachment id, collected by the
walker. -/
def c1wleaf2 : Payload :=
  .node (some "application/pdf") (some "b.pdf") (some ⟨none, some "att2", some 2048⟩) none

/-- Inner multipart holding an uncollected inline part and a collected
remote attachment. -/
def c1winner : Payload := .node (some "multipart/mixed") none none (some [c1leaf, c1wleaf2])

/-- Nested tree exercising the attachment collector on both part
kinds. -/
def c1wtree : Payload := .node (some "multipart/mixed") none none (some [c1winner])

theorem preorder_some (a b : Option String) (c : Option Body) (l : List Payload) :
    preorderNodes (.node a b c (some l)) = .node a b c (some l) :: preorderForest l := rfl

theorem preorder_none (a b : Option String) (c : Option Body) :
    preorderNodes (.node a b c none) = [.node a b c none] := rfl

theorem preorder_forest_cons (p : Payload) (rest : List Payload) :
    preorderForest (p :: rest) = preorderNodes p ++ preorderForest rest := rfl

theorem self_mem_preorder (p : Payload) : p ∈ preorderNodes p := by
  cases p with
  | node a b c ps =>
    cases ps with
    | none => simp [preorder_none]
    | some l => simp [preorder_some]

mutual
theorem extract_none_of_no_mime (decode : String → Option String) (mt : String) :
    ∀ (p : Payload), (∀ n ∈ preorderNodes p, ¬ Payload.mimeType n = some mt) →
      extract_text_from_payload decode mt p = none
  | .node pmt fn pb pparts => fun h => by
    have hroot : ¬ pmt = some mt := by
      have := h (Payload.node pmt fn pb pparts) (self_mem_preorder _)
      simpa [Payload.mimeType] using this
    cases pparts with
    | none => simp [extract_text_from_payload, hroot]
    | some ps =>
      have hps : ∀ n ∈ preorderForest ps, ¬ Payload.mimeType n = some mt := by
        intro n hn
        exact h n (by rw [preorder_some]; exact List.mem_cons_of_mem _ hn)
      have hl := extract_loop_none_of_no_mime decode mt ps hps
      simp [extract_text_from_payload, hroot, hl]

theorem extract_loop_none_of_no_mime (decode : String → Option String) (mt : String) :
    ∀ (ps : List Payload), (∀ n ∈ preorderForest ps, ¬ Payload.mimeType n = some mt) →
      extract_text_loop decode mt ps = none
  | [] => fun _ => rfl
  | p :: rest => fun h => by
    have hp := extract_none_of_no_mime decode mt p (fun n hn =>
      h n (by rw [preorder_forest_cons]; exact List.mem_append_left _ hn))
    have hr := extract_loop_none_of_no_mime decode mt rest (fun n hn =>
      h n (by rw [preorder_forest_cons]; exact List.mem_append_right _ hn))
    simp [extract_text_loop, hp, hr]
end

theorem extract_node_none_parts (decode : String → Option String) (mt : String)
    (pmt fn : Option String) (pb : Option Body) :
    extract_text_from_payload decode mt (.node pmt fn pb none) =
      (match (if pmt = some mt then pb.bind Body.data else none) with
       | some d => if d = "" then none else decode d
       | none => none) := rfl

theorem extract_node_some_parts (decode : String → Option String) (mt : String)
    (pmt fn : Option String) (pb : Option Body) (ps : List Payload) :
    extract_text_from_payload decode mt (.node pmt fn pb (some ps)) =
      (match (if pmt = some mt then pb.bind Body.data else none) with
       | some d => if d = "" then extract_text_loop decode mt ps else decode d
       | none => extract_text_loop decode mt ps) := rfl

theorem extract_loop_cons (decode : String → Option String) (mt : String)
    (p : Payload) (rest : List Payload) :
    extract_text_loop decode mt (p :: rest) =
      (match extract_text_from_payload decode mt p with
       | some s => if s = "" then extract_text_loop decode mt rest else some s
       | none => extract_text_loop decode mt rest) := rfl

mutual
theorem extract_falsy_of_no_yield (decode : String → Option String) (mt : String) :
    ∀ (p : Payload), (∀ n ∈ preorderNodes p, nodeYieldsContent decode mt n = false) →
      extract_text_from_payload decode mt p = none ∨ extract_text_from_payload decode mt p = some ""
  | .node pmt fn pb pparts => fun h => by
    have hy : nodeYieldsContent decode mt (Payload.node pmt fn pb pparts) = false :=
      h _ (self_mem_preorder _)
    have hloop : ∀ ps, pparts = some ps → extract_text_loop decode mt ps = none := by
      intro ps hps
      apply extract_loop_falsy_of_no_yield decode mt ps
      intro n hn
      apply h
      rw [hps, preorder_some]
      exact List.mem_cons_of_mem _ hn
    by_cases hpm : pmt = some mt
    · cases hd : pb.bind Body.data with
      | none =>
        left
        cases pparts with
        | none => rw [extract_node_none_parts]; simp [hpm, hd]
        | some ps => rw [extract_node_some_parts]; simp [hpm, hd, hloop ps rfl]
      | some d =>
        by_cases hdd : d = ""
        · subst hdd
          left
          cases pparts with
          | none => rw [extract_node_none_parts]; simp [hpm, hd]
          | some ps => rw [extract_node_some_parts]; simp [hpm, hd, hloop ps rfl]
        · simp [nodeYieldsContent, Payload.mimeType, bodyData, Payload.body, hpm, hd, hdd] at hy
          cases hdec : decode d with
          | none =>
            left
            cases pparts with
            | none => rw [extract_node_none_parts]; simp [hpm, hd, hdd, hdec]
            | some ps => rw [extract_node_some_parts]; simp [hpm, hd, hdd, hdec]
          | some s =>
            right
            rw [hdec] at hy
            simp at hy
            subst hy
            cases pparts with
            | none => rw [extract_node_none_parts]; simp [hpm, hd, hdd, hdec]
            | some ps => rw [extract_node_some_parts]; simp [hpm, hd, hdd, hdec]
    · left
      cases pparts with
      | none => rw [extract_node_none_parts]; simp [hpm]
      | some ps => rw [extract_node_some_parts]; simp [hpm, hloop ps rfl]

theorem extract_loop_falsy_of_no_yield (decode : String → Option String) (mt : String) :
    ∀ (ps : List Payload), (∀ n ∈ preorderForest ps, nodeYieldsContent decode mt n = false) →
      extract_text_loop decode mt ps = none
  | [] => fun _ => rfl
  | p :: rest => fun h => by
    have hp := extract_falsy_of_no_yield decode mt p (fun n hn =>
      h n (by rw [preorder_forest_cons]; exact List.mem_append_left _ hn))
    have hr := extract_loop_falsy_of_no_yield decode mt rest (fun n hn =>
      h n (by rw [preorder_forest_cons]; exact List.mem_append_right _ hn))
    rcases hp with hp | hp
    · rw [extract_loop_cons, hp]; exact hr
    · rw [extract_loop_cons, hp]; simpa using hr
end

mutual
theorem extract_first_mime (decode : String → Option String) (mt : String) :
    ∀ (p : Payload) (n0 : Payload) (d s : String),
      (preorderNodes p).find? (mimeIs mt) = some n0 →
      bodyData n0 = some d → d ≠ "" → decode d = some s → s ≠ "" →
      extract_text_from_payload decode mt p = some s
  | .node pmt fn pb pparts => fun n0 d s hfind hbd hdd hdec hs => by
    by_cases hpm : pmt = some mt
    · have hpred : mimeIs mt (Payload.node pmt fn pb pparts) = true := by
        simp [mimeIs, Payload.mimeType, hpm]
      have hn0 : n0 = Payload.node pmt fn pb pparts := by
        cases pparts with
        | none =>
          rw [preorder_none, List.find?_cons_of_pos _ hpred] at hfind
          exact (Option.some_inj.mp hfind).symm
        | some ps =>
          rw [preorder_some, List.find?_cons_of_pos _ hpred] at hfind
          exact (Option.some_inj.mp hfind).symm
      subst hn0
      simp [bodyData, Payload.body] at hbd
      cases pparts with
      | none => rw [extract_node_none_parts]; simp [hpm, hbd, hdd, hdec]
      | some ps => rw [extract_node_some_parts]; simp [hpm, hbd, hdd, hdec]
    · have hpred : ¬ mimeIs mt (Payload.node pmt fn pb pparts) = true := by
        simp [mimeIs, Payload.mimeType, hpm]
      cases pparts with
      | none =>
        rw [preorder_none, List.find?_cons_of_neg _ hpred] at hfind
        simp [List.find?] at hfind
      | some ps =>
        rw [preorder_some, List.find?_cons_of_neg _ hpred] at hfind
        have hl := extract_loop_first_mime decode mt ps n0 d s hfind hbd hdd hdec hs
        rw [extract_node_some_parts]; simp [hpm, hl]

theorem extract_loop_first_mime (decode : String → Option String) (mt : String) :
    ∀ (ps : List Payload) (n0 : Payload) (d s : String),
      (preorderForest ps).find? (mimeIs mt) = some n0 →
      bodyData n0 = some d → d ≠ "" → decode d = some s → s ≠ "" →
      extract_text_loop decode mt ps = some s
  | [] => fun n0 d s hfind hbd hdd hdec hs => by
    simp [preorderForest, List.find?] at hfind
  | p :: rest => fun n0 d s hfind hbd hdd hdec hs => by
    rw [preorder_forest_cons, List.find?_append] at hfind
    cases h1 : (preorderNodes p).find? (mimeIs mt) with
    | some m =>
      rw [h1] at hfind
      simp at hfind
      subst hfind
      have hp := extract_first_mime decode mt p m d s h1 hbd hdd hdec hs
      rw [extract_loop_cons, hp]
      simp [hs]
    | none =>
      rw [h1] at hfind
      simp at hfind
      have hnone : extract_text_from_payload decode mt p = none := by
        apply extract_none_of_no_mime decode mt p
        intro n hn
        have := List.find?_eq_none.mp h1 n hn
        simpa [mimeIs] using this
      have hr := extract_loop_first_mime decode mt rest n0 d s hfind hbd hdd hdec hs
      rw [extract_loop_cons, hnone]
      exact hr
end

theorem process_one_part_some_children (pmt pfn : Option String) (pbody : Option Body)
    (children : List Payload) :
    process_one_part (.node pmt pfn pbody (some children)) = process_parts children := rfl

theorem process_parts_cons (part : Payload) (rest : List Payload) :
    process_parts (part :: rest) =
      (match process_one_part part with
       | .error e => .error e
       | .ok a =>
         match process_parts rest with
         | .error e => .error e
         | .ok b => .ok (a ++ b)) := rfl

mutual
theorem process_one_part_ok :
    ∀ (part : Payload) (a : List AttachmentInfo), process_one_part part = .ok a →
      a = ((preorderNodes part).filter collectedAsAttachment).map attachment_record
  | .node pmt pfn pbody (some children) => fun a ha => by
    rw [process_one_part_some_children] at ha
    have := process_parts_ok children a ha
    rw [preorder_some, List.filter_cons]
    have hcoll : collectedAsAttachment (Payload.node pmt pfn pbody (some children)) = false := by
      simp [collectedAsAttachment, Payload.parts]
    simp [hcoll]
    exact this
  | .node pmt pfn pbody none => fun a ha => by
    rw [preorder_none, List.filter_cons]
    by_cases hfn : truthyStr pfn = true
    · cases pbody with
      | none => simp [process_one_part, hfn] at ha
      | some b =>
        by_cases hatt : truthyStr b.attachmentId = true
        · cases hmt : pmt with
          | none => simp [process_one_part, hfn, hatt, hmt] at ha
          | some m =>
            subst hmt
            have hcoll : collectedAsAttachment (Payload.node (some m) pfn (some b) none) = true := by
              simp [collectedAsAttachment, Payload.parts, Payload.filename, Payload.body, hfn, hatt]
            have hval : process_one_part (Payload.node (some m) pfn (some b) none) =
                .ok [{ filename := pfn.getD "", mime_type := m,
                       size := format_file_size (toString (b.size.getD 0)),
                       attachment_id := b.attachmentId.getD "" }] := by
              simp [process_one_part, hfn, hatt]
            rw [hval] at ha
            injection ha with ha2
            subst ha2
            simp [hcoll, attachment_record, Payload.filename, Payload.mimeType, Payload.body]
        · have hcoll : collectedAsAttachment (Payload.node pmt pfn (some b) none) = false := by
            simp [collectedAsAttachment, Payload.parts, Payload.filename, Payload.body, hatt]
          simp only [process_one_part, hfn, hatt, if_true, if_false] at ha
          simp at ha
          subst ha
          simp [hcoll]
    · have hcoll : collectedAsAttachment (Payload.node pmt pfn pbody none) = false := by
        simp [collectedAsAttachment, Payload.parts, Payload.filename, Payload.body, hfn]
      simp only [process_one_part] at ha
      rw [if_neg hfn] at ha
      simp at ha
      subst ha
      simp [hcoll]

theorem process_parts_ok :
    ∀ (ps : List Payload) (l : List AttachmentInfo), process_parts ps = .ok l →
      l = ((preorderForest ps).filter collectedAsAttachment).map attachment_record
  | [] => fun l hl => by
    simp [process_parts] at hl
    subst hl
    simp [preorderForest]
  | part :: rest => fun l hl => by
    rw [process_parts_cons] at hl
    cases h1 : process_one_part part with
    | error e => rw [h1] at hl; simp at hl
    | ok a =>
      rw [h1] at hl
      cases h2 : process_parts rest with
      | error e => rw [h2] at hl; simp at hl
      | ok b =>
        rw [h2] at hl
        simp at hl
        subst hl
        have ha := process_one_part_ok part a h1
        have hb := process_parts_ok rest b h2
        rw [preorder_forest_cons, List.filter_append, List.map_append, ha, hb]
end

theorem get_attachment_info_ok (p : Payload) (l : List AttachmentInfo)
    (h : get_attachment_info p = .ok l) :
    l = ((descendants p).filter collectedAsAttachment).map attachment_record := by
  cases hp : Payload.parts p with
  | none =>
    rw [get_attachment_info, hp] at h
    simp at h
    subst h
    simp [descendants, hp]
  | some ps =>
    rw [get_attachment_info, hp] at h
    rw [descendants, hp]
    exact process_parts_ok ps l h

theorem auto_select_first_eq_find (ps : List Payload) :
    auto_select_first ps = ps.find? auto_select_pred := by
  induction ps with
  | nil => rfl
  | cons p rest ih =>
    by_cases h : auto_select_pred p = true
    · rw [auto_select_first, if_pos h, List.find?_cons_of_pos _ h]
    · rw [auto_select_first, if_neg h, List.find?_cons_of_neg _ h, ih]

theorem subAt_here (x post : List Char) : subAt x (x ++ post) = true := by
  induction x with
  | nil => rfl
  | cons c rest ih => simp [subAt, ih]

theorem containsSub_append (x pre post : List Char) :
    containsSub x (pre ++ (x ++ post)) = true := by
  induction pre with
  | nil =>
    cases hx : x with
    | nil =>
      cases post with
      | nil => rfl
      | cons h hr => simp [containsSub, subAt]
    | cons c xs =>
      subst hx
      simp only [List.nil_append, List.cons_append, containsSub, Bool.or_eq_true]
      left
      exact subAt_here (c :: xs) post
  | cons c rest ih => simp [containsSub, ih]

theorem toList_append (a b : String) : (a ++ b).toList = a.toList ++ b.toList := rfl

theorem gmail_find_collect_cons {α β : Type} (max_results : Int) (fetch : α → Option β)
    (m : α) (rest : List α) (valid : List β) :
    gmail_find_collect max_results fetch (m :: rest) valid =
      (if max_results ≤ (valid.length : Int) then valid
       else match fetch m with
         | some d => gmail_find_collect max_results fetch rest (valid ++ [d])
         | none => gmail_find_collect max_results fetch rest valid) := rfl

theorem gmail_find_collect_length {α β : Type} (max_results : Int) (fetch : α → Option β) :
    ∀ (msgs : List α) (valid : List β), (valid.length : Int) ≤ max_results →
      ((gmail_find_collect max_results fetch msgs valid).length : Int) ≤ max_results
  | [], valid => fun h => h
  | m :: rest, valid => fun h => by
    rw [gmail_find_collect_cons]
    by_cases hb : max_results ≤ (valid.length : Int)
    · rw [if_pos hb]; exact h
    · rw [if_neg hb]
      push_neg at hb
      cases fetch m with
      | some d =>
        apply gmail_find_collect_length max_results fetch rest (valid ++ [d])
        simp
        omega
      | none => exact gmail_find_collect_length max_results fetch rest valid h

/-- Claim C1, amended: on every payload tree on which it does not raise a
KeyError, the Attachment Collector returns exactly the non-root nodes that
carry no nested-parts key, a non-empty filename and a non-empty remote
attachmentId reference (inline body data alone does not qualify), as
records in depth-first traversal order, so the output length equals the
count of such nodes regardless of nesting depth. -/
theorem c1_attachment_collector (p : Payload) (l : List AttachmentInfo)
    (h : get_attachment_info p = .ok l) :
    l = ((descendants p).filter collectedAsAttachment).map attachment_record ∧
    l.length = ((descendants p).filter collectedAsAttachment).length := by
  have hmain := get_attachment_info_ok p l h
  exact ⟨hmain, by rw [hmain, List.length_map]⟩

/-- Witness for C1 on a nested tree holding one inline-data part (not
collected) and one remote-reference part (collected). -/
theorem c1_attachment_collector_witness :
    [({ filename := "b.pdf", mime_type := "application/pdf", size := "2.0 KB",
        attachment_id := "att2" } : AttachmentInfo)] =
      ((descendants c1wtree).filter collectedAsAttachment).map attachment_record ∧
    [({ filename := "b.pdf", mime_type := "application/pdf", size := "2.0 KB",
        attachment_id := "att2" } : AttachmentInfo)].length =
      ((descendants c1wtree).filter collectedAsAttachment).length :=
  c1_attachment_collector c1wtree _ rfl

/-- Counterexample to C1 as stated: a node with a non-empty filename and
inline body data (a usable body reference by the claim) is not collected,
so the output length differs from the claimed count. -/
theorem c1_counterexample :
    get_attachment_info c1tree = .ok [] ∧
    ((descendants c1tree).filter claim_attachment).length = 1 :=
  ⟨rfl, by decide⟩

/-- Claim C2, amended: with no attachment_id given, the single-attachment
fetch scans only the top-level parts list of the payload (nested parts are
never examined) and picks the first part whose lower-cased filename ends
in .pdf, .docx or .txt and whose body carries an attachmentId; when no
top-level part qualifies it returns the explicit no-supported-attachment
message instead of picking anything. -/
theorem c2_auto_select (payload : Payload) :
    gmail_read_attchment_auto_select payload =
      (match ((Payload.parts payload).getD []).find? auto_select_pred with
       | some part => .ok (part, ((Payload.body part).bind Body.attachmentId).getD "")
       | none => .error no_supported_attachment_msg) ∧
    (gmail_read_attchment_auto_select payload = .error no_supported_attachment_msg ↔
      ∀ part ∈ (Payload.parts payload).getD [], auto_select_pred part = false) := by
  constructor
  · rw [gmail_read_attchment_auto_select, auto_select_first_eq_find]
  · rw [gmail_read_attchment_auto_select, auto_select_first_eq_find]
    constructor
    · intro h part hmem
      cases hf : ((Payload.parts payload).getD []).find? auto_select_pred with
      | some q => rw [hf] at h; exact absurd h (by simp)
      | none =>
        have := List.find?_eq_none.mp hf part hmem
        simpa using this
    · intro hall
      have : ((Payload.parts payload).getD []).find? auto_select_pred = none :=
        List.find?_eq_none.mpr (fun x hx => by simp [hall x hx])
      rw [this]

/-- Witness for C2: the specification scenario of a message whose only
attachment is image.png yields the explicit message. -/
theorem c2_auto_select_witness :
    gmail_read_attchment_auto_select c2pngtree = .error no_supported_attachment_msg :=
  (c2_auto_select c2pngtree).2.mpr (by decide)

/-- Counterexample to C2 as stated: a supported pdf attachment nested one
level below the top-level parts is never examined, so the fetch reports
no supported attachment even though a depth-first traversal of the whole
tree finds one. -/
theorem c2_counterexample :
    gmail_read_attchment_auto_select c2tree = .error no_supported_attachment_msg ∧
    (descendants c2tree).any auto_select_pred = true ∧
    supported_attachment_filename "report.pdf" = true :=
  ⟨rfl, by decide, by decide⟩

/-- Claim C6, amended: a candidate node whose mimeType key holds the empty
string is collected with its content type reported as empty, but a
candidate node whose mimeType key is absent makes get_attachment_info
raise a KeyError instead of collecting the node. -/
theorem c6_missing_content_type :
    get_attachment_info c6treeEmptyMime =
      .ok [{ filename := "a.txt", mime_type := "", size := "0.0 B", attachment_id := "att1" }] ∧
    get_attachment_info c6treeNoMime = .error (.keyError "mimeType") :=
  ⟨rfl, rfl⟩

/-- Counterexample to C6 as stated: the node with filename and body
reference but no recorded content type makes the collector fail with a
KeyError rather than being collected with an empty content type. -/
theorem c6_counterexample :
    get_attachment_info c6treeNoMime = .error (.keyError "mimeType") ∧
    truthyStr (Payload.filename c6leafNoMime) = true ∧
    truthyStr ((Payload.body c6leafNoMime).bind Body.attachmentId) = true ∧
    Payload.mimeType c6leafNoMime = none :=
  ⟨rfl, by decide, by decide, rfl⟩

/-- Claim C10: the source defines format_file_size twice with conflicting
behaviour; the first returns Size unknown on the input N/A while the
second returns the input unchanged, so they are not extensionally equal,
and the runtime call sites (here the attachment collector) use the second
definition, which formats sizes below 1024 with a decimal point. -/
theorem c10_format_file_size_conflict :
    format_file_size_first "N/A" = "Size unknown" ∧
    format_file_size "N/A" = "N/A" ∧
    format_file_size_first "N/A" ≠ format_file_size "N/A" ∧
    format_file_size "2048" = "2.0 KB" ∧
    format_file_size "512" = "512.0 B" ∧
    format_file_size_first "512" = "512 B" ∧
    get_attachment_info c10tree =
      .ok [{ filename := "r.pdf", mime_type := "application/pdf", size := "7.0 B",
             attachment_id := "att7" }] ∧
    format_file_size_first "7" = "7 B" :=
  ⟨rfl, rfl, by decide, rfl, rfl, rfl, rfl, rfl⟩

/-- Claim C3, amended: on every payload tree in which no node yields
non-empty decoded content for text/plain or for text/html, the body
extraction returns the distinct message (never the empty string); a
matching node whose data decodes to the empty string yields nothing and is
therefore treated exactly like an absent node at this level. -/
theorem c3_no_readable_content (decode : String → Option String) (p : Payload)
    (hplain : anyNodeYields decode "text/plain" p = false)
    (hhtml : anyNodeYields decode "text/html" p = false) :
    extract_email_body decode p = "No readable text content found." ∧
    extract_email_body decode p ≠ "" := by
  have h1 := extract_falsy_of_no_yield decode "text/plain" p (by
    intro n hn
    have := List.any_eq_false.mp hplain n hn
    simpa using this)
  have h2 := extract_falsy_of_no_yield decode "text/html" p (by
    intro n hn
    have := List.any_eq_false.mp hhtml n hn
    simpa using this)
  have hres : extract_email_body decode p = "No readable text content found." := by
    rw [extract_email_body]
    rcases h1 with h1 | h1 <;> rcases h2 with h2 | h2 <;>
      simp [h1, h2, truthyStr]
  exact ⟨hres, by rw [hres]; decide⟩

/-- Witness for C3 on the tree whose single text/plain node decodes to the
empty string. -/
theorem c3_no_readable_content_witness :
    extract_email_body decodeEx c3tree1 = "No readable text content found." ∧
    extract_email_body decodeEx c3tree1 ≠ "" :=
  c3_no_readable_content decodeEx c3tree1 (by decide) (by decide)

/-- Counterexample to C3 as stated: the tree whose matching node carries
data decoding to the empty string produces exactly the same output as a
tree with no matching node at all, so the two are not distinguishable
through extract_email_body. -/
theorem c3_counterexample :
    extract_email_body decodeEx c3tree1 = extract_email_body decodeEx c3tree2 ∧
    Payload.mimeType c3tree1 = some "text/plain" ∧
    bodyData c3tree1 = some "====" ∧
    decodeEx "====" = some "" ∧
    (∀ n ∈ preorderNodes c3tree2,
      Payload.mimeType n ≠ some "text/plain" ∧ Payload.mimeType n ≠ some "text/html") :=
  ⟨rfl, rfl, rfl, rfl, by decide⟩

/-- Claim C4, amended: when the inline data of a node matching the
requested type fails to decode, the walker catches the exception and
returns None for that node, abandoning that subtree; in a sibling list the
traversal simply continues past the failing node, and no exception ever
propagates (the walker is a total function). -/
theorem c4_decode_failure (decode : String → Option String) (mt : String)
    (p : Payload) (d : String)
    (hm : Payload.mimeType p = some mt) (hd : bodyData p = some d) (hdd : d ≠ "")
    (hfail : decode d = none) :
    extract_text_from_payload decode mt p = none ∧
    ∀ rest, extract_text_loop decode mt (p :: rest) = extract_text_loop decode mt rest := by
  cases p with
  | node pmt fn pb pparts =>
    simp only [Payload.mimeType] at hm
    simp only [bodyData, Payload.body] at hd
    have h1 : extract_text_from_payload decode mt (.node pmt fn pb pparts) = none := by
      cases pparts with
      | none => rw [extract_node_none_parts]; simp [hm, hd, hdd, hfail]
      | some ps => rw [extract_node_some_parts]; simp [hm, hd, hdd, hfail]
    refine ⟨h1, fun rest => ?_⟩
    rw [extract_loop_cons, h1]

/-- Witness for C4: the malformed root with a healthy sibling list. -/
theorem c4_decode_failure_witness :
    extract_text_from_payload decodeEx "text/plain" c4tree = none ∧
    extract_text_loop decodeEx "text/plain" [c4tree, c4child] =
      extract_text_loop decodeEx "text/plain" [c4child] :=
  ⟨(c4_decode_failure decodeEx "text/plain" c4tree "A" rfl rfl (by decide) rfl).1,
   (c4_decode_failure decodeEx "text/plain" c4tree "A" rfl rfl (by decide) rfl).2 [c4child]⟩

/-- Counterexample to C4 as stated: after the decode failure at the root,
the traversal does not continue into the remaining (descendant) nodes: the
child holds perfectly decodable matching content, yet the walker returns
None for the whole tree. -/
theorem c4_counterexample :
    extract_text_from_payload decodeEx "text/plain" c4tree = none ∧
    descendants c4tree = [c4child] ∧
    extract_text_from_payload decodeEx "text/plain" c4child = some "Hello" ∧
    bodyData c4tree = some "A" ∧
    decodeEx "A" = none :=
  ⟨rfl, rfl, rfl, rfl, rfl⟩

/-- Claim C5, amended: when the first text/plain node in depth-first
pre-order has inline data decoding to a non-empty string, body extraction
with plain-text preference returns exactly that decoded string, ignoring
every text/html node and applying no tag stripping; a first plain node
decoding to the empty string is instead skipped in favour of later
content. -/
theorem c5_plain_preference (decode : String → Option String) (p : Payload)
    (n0 : Payload) (d s : String)
    (hfind : firstNodeWithMime "text/plain" p = some n0)
    (hbd : bodyData n0 = some d) (hdd : d ≠ "")
    (hdec : decode d = some s) (hs : s ≠ "")
    (hhtml : ∃ nh ∈ preorderNodes p, Payload.mimeType nh = some "text/html") :
    extract_email_body decode p = s := by
  rw [firstNodeWithMime] at hfind
  have hx := extract_first_mime decode "text/plain" p n0 d s hfind hbd hdd hdec hs
  rw [extract_email_body]
  simp [hx, truthyStr, hs]

/-- Witness for C5: a multipart tree whose first plain part decodes to
Hello next to an html alternative. -/
theorem c5_plain_preference_witness :
    extract_email_body decodeEx c5wtree = "Hello" :=
  c5_plain_preference decodeEx c5wtree c5p2 "SGVsbG8=" "Hello" rfl rfl (by decide) rfl
    (by decide)
    ⟨c5p3, by
      rw [show preorderNodes c5wtree = [c5wtree, c5p2, c5p3] from rfl]
      exact List.Mem.tail _ (List.Mem.tail _ (List.Mem.head _)), rfl⟩

/-- Counterexample to C5 as stated: the first text/plain node in pre-order
carries decodable data (decoding to the empty string), yet the extraction
returns the content of the second plain node instead of the content of the
first. -/
theorem c5_counterexample :
    firstNodeWithMime "text/plain" c5tree = some c5p1 ∧
    bodyData c5p1 = some "====" ∧
    decodeEx "====" = some "" ∧
    extract_email_body decodeEx c5tree = "Hello" ∧
    extract_email_body decodeEx c5tree ≠ "" :=
  ⟨rfl, rfl, rfl, rfl, by decide⟩

/-- Claim C7, amended: whenever the extracted text strips to a non-empty
string and its token count exceeds the budget, the attachment reader
returns the explicit size-limit message, which names both the measured
token count and the budget, and the extracted text is discarded entirely:
the output depends only on the filename and the token count, never on the
text itself, so no truncated prefix of the text is ever returned.  An
extracted text that strips to the empty string (whitespace only) is
instead caught by the earlier no-extractable-text return, whatever its
token count, and that message names neither number. -/
theorem c7_size_limit :
    (∀ (tokenCount : String → Nat) (filename text : String),
      pyStripStr text ≠ "" → MAX_TOKENS < tokenCount text →
      gmail_read_attchment_finalize tokenCount filename text =
        size_limit_message filename (tokenCount text) ∧
      containsSub (toString (tokenCount text)).toList
        (size_limit_message filename (tokenCount text)).toList = true ∧
      containsSub (toString MAX_TOKENS).toList
        (size_limit_message filename (tokenCount text)).toList = true ∧
      (∀ text2, pyStripStr text2 ≠ "" → tokenCount text2 = tokenCount text →
        gmail_read_attchment_finalize tokenCount filename text2 =
          gmail_read_attchment_finalize tokenCount filename text)) ∧
    (∀ (tokenCount : String → Nat) (filename text : String),
      pyStripStr text = "" →
      gmail_read_attchment_finalize tokenCount filename text =
        "Attachment was processed but no extractable text was found.") := by
  constructor
  · intro tokenCount filename text hne hover
    have h1 : gmail_read_attchment_finalize tokenCount filename text =
        size_limit_message filename (tokenCount text) := by
      rw [gmail_read_attchment_finalize, if_neg hne, if_pos hover]
    refine ⟨h1, ?_, ?_, ?_⟩
    · have hsplit : (size_limit_message filename (tokenCount text)).toList =
          ("File " ++ squote ++ filename ++ squote ++ " is too large (").toList ++
            ((toString (tokenCount text)).toList ++
              (" tokens). Maximum allowed is " ++ toString MAX_TOKENS ++
                " tokens. The file will not be loaded.").toList) := by
        simp [size_limit_message, toList_append, List.append_assoc]
      rw [hsplit]
      exact containsSub_append _ _ _
    · have hsplit : (size_limit_message filename (tokenCount text)).toList =
          ("File " ++ squote ++ filename ++ squote ++ " is too large (" ++
              toString (tokenCount text) ++ " tokens). Maximum allowed is ").toList ++
            ((toString MAX_TOKENS).toList ++
              (" tokens. The file will not be loaded." : String).toList) := by
        simp [size_limit_message, toList_append, List.append_assoc]
      rw [hsplit]
      exact containsSub_append _ _ _
    · intro text2 hne2 heq
      rw [gmail_read_attchment_finalize, if_neg hne2, if_pos (heq ▸ hover), heq, h1]
  · intro tokenCount filename text hemp
    rw [gmail_read_attchment_finalize, if_pos hemp]

/-- Witness for C7: a tokenizer charging 40000 tokens per character meets
the 30000 budget cap on a one-character text, and a whitespace-only text
hits the no-extractable-text return. -/
theorem c7_size_limit_witness :
    gmail_read_attchment_finalize (fun s => 40000 * s.length) "doc.pdf" "a" =
      size_limit_message "doc.pdf" ((fun s : String => 40000 * s.length) "a") ∧
    gmail_read_attchment_finalize (fun s => 40000 * s.length) "doc.pdf" "b" =
      gmail_read_attchment_finalize (fun s => 40000 * s.length) "doc.pdf" "a" ∧
    gmail_read_attchment_finalize (fun s => 40000 * s.length) "notes.txt" "\n" =
      "Attachment was processed but no extractable text was found." := by
  have h := c7_size_limit.1 (fun s => 40000 * s.length) "doc.pdf" "a" (by decide) (by decide)
  exact ⟨h.1, h.2.2.2 "b" (by decide) (by decide),
    c7_size_limit.2 (fun s => 40000 * s.length) "notes.txt" "\n" (by decide)⟩

/-- Counterexample to C7 as stated: a whitespace-only extracted text whose
token count exceeds the cap is caught by the earlier no-extractable-text
check, so the returned message names neither the limit nor the measured
token count. -/
theorem c7_counterexample :
    gmail_read_attchment_finalize (fun s => 40000 * s.length) "notes.txt" "\n" =
      "Attachment was processed but no extractable text was found." ∧
    MAX_TOKENS < (fun s : String => 40000 * s.length) "\n" ∧
    containsSub (toString MAX_TOKENS).toList
      ("Attachment was processed but no extractable text was found.").toList = false ∧
    containsSub (toString ((fun s : String => 40000 * s.length) "\n")).toList
      ("Attachment was processed but no extractable text was found.").toList = false :=
  ⟨rfl, by decide, by decide, by decide⟩

/-- Claim C8, amended: strip_html_tags removes the angle-bracket-delimited
tags that do not span a newline, decodes standard HTML entities, collapses
whitespace runs to single spaces and trims the ends, in that order; on the
input <b>Hi</b>&nbsp;there it returns exactly Hi there, while a tag whose
interior contains a newline is left in place (the regex dot does not match
a newline). -/
theorem c8_strip_html_tags :
    strip_html_tags "<b>Hi</b>&nbsp;there" = "Hi there" ∧
    strip_html_tags "<div> A &amp;  B </div>" = "A & B" ∧
    strip_html_tags "<a\nb>Hi" = "<a b>Hi" ∧
    (∀ s : String, strip_html_tags s =
      if s = "" then ""
      else String.mk (pyStripList (collapseWs (unescapeHtml (removeTags s.toList))))) :=
  ⟨rfl, rfl, rfl, fun _ => rfl⟩

/-- Counterexample to C8 as stated: the angle-bracket-delimited tag whose
interior spans a newline is not removed, so the output still contains an
opening angle bracket and differs from the tag-free text. -/
theorem c8_counterexample :
    strip_html_tags "<a\nb>Hi" = "<a b>Hi" ∧
    strip_html_tags "<a\nb>Hi" ≠ "Hi" ∧
    (strip_html_tags "<a\nb>Hi").toList.contains (Char.ofNat 60) = true :=
  ⟨rfl, by decide, by decide⟩

/-- Claim C9: the enumeration caps are hard.  The attachment-search loop
never returns more than max_results messages whatever the remote search
returns and however the per-message processing filters, and the drive
listing never shows more than min max_results 1000 items provided the
remote honours the requested page size. -/
theorem c9_hard_caps :
    (∀ (α β : Type) (max_results : Int) (fetch : α → Option β) (message_list : List α),
      0 ≤ max_results →
      ((gmail_find_messages_result max_results fetch message_list).length : Int) ≤ max_results) ∧
    (∀ (γ : Type) (max_results : Int) (listFiles : Int → List γ),
      (∀ n : Int, 0 ≤ n → ((listFiles n).length : Int) ≤ n) → 0 ≤ max_results →
      ((drive_list_all_files_items max_results listFiles).length : Int) ≤ min max_results 1000) := by
  constructor
  · intro α β mr fetch msgs h0
    exact gmail_find_collect_length mr fetch msgs [] (by simpa using h0)
  · intro γ mr listFiles hc h0
    have hmin : (0 : Int) ≤ min mr 1000 := le_min h0 (by norm_num)
    rw [drive_list_all_files_items]
    exact hc (min mr 1000) hmin

/-- Witness for C9: five search hits filtered into a cap of three, and a
replicating drive stub capped by the page size. -/
theorem c9_hard_caps_witness :
    ((gmail_find_messages_result 3 (fun n : Nat => some n) [1, 2, 3, 4, 5]).length : Int) ≤ 3 ∧
    ((drive_list_all_files_items 5 (fun n : Int => List.replicate n.toNat 0)).length : Int) ≤
      min 5 1000 :=
  ⟨c9_hard_caps.1 Nat Nat 3 (fun n => some n) [1, 2, 3, 4, 5] (by decide),
   c9_hard_caps.2 Nat 5 (fun n : Int => List.replicate n.toNat 0)
     (fun n hn => by simp [List.length_replicate]; omega) (by decide)⟩
